import Mathlib

/-!
# pqcrypto: handshake state machine, hook decorator, builder, dial function, messages

A shallow embedding of `src/main.go` and of the declarations of
`src/messages.go`. The repository has no encoder or decoder for the messages,
so none is embedded.

* Go calls either return or panic: `Outcome`.
* Everything outside the program (the network peer, whatever a hook closure
  captured, the `context.Context` handed through unchanged) is one value of an
  arbitrary type `σ`; hooks, user-supplied phases and `net.Conn` methods are
  functions on it.
* A `World` pairs that environment with a call log.  The log is ghost state:
  every hook call, every `Execute`, every `Next` issued by `Handshake` and every
  `net.Conn` method call appends one `Event`, so that "is never invoked" and
  "exactly once" are statements about the log.
* Go maps are `GoMap`: the nil map, or a finite table with unique keys.
* Interface and func values that may be nil are `Option`s.
-/

namespace PQCrypto

variable {σ : Type}

/-! ## Go runtime vocabulary -/

/-- A non-nil Go `error`, identified by its message. -/
abbrev Error := String

/-- How a Go call ends: it returns a value, or the goroutine panics (`fault`). -/
inductive Outcome (α : Type) where
  | ret (a : α)
  | fault

/-- Sequencing of calls: a panic in the first call skips the second. -/
def Outcome.bind {α β : Type} : Outcome α → (α → Outcome β) → Outcome β
  | .ret a, f => f a
  | .fault, _ => .fault

/-- `type TLSStateID string`. -/
abbrev TLSStateID := String

/-- `ClientHelloStateID TLSStateID = "ClientHelloState"`. -/
def ClientHelloStateID : TLSStateID := "ClientHelloState"

/-- `ServerHelloStateID TLSStateID = "ServerHelloState"`. -/
def ServerHelloStateID : TLSStateID := "ServerHelloState"

/-- A Go `map[TLSStateID]V`: the nil map, or an allocated table. -/
inductive GoMap (V : Type) where
  | nil
  | table (t : Finmap (fun _ : TLSStateID => V))

/-- The map built by `make(map[TLSStateID]V)`: allocated and empty. -/
def GoMap.make {V : Type} : GoMap V := .table ∅

/-- The comma-ok read `v, ok := m[k]`: `none` when `ok` is false. Reading the nil
map is allowed and finds nothing. -/
def GoMap.lookup {V : Type} (m : GoMap V) (k : TLSStateID) : Option V :=
  match m with
  | .nil => none
  | .table t => t.lookup k

/-- The plain read `m[k]`: the stored value, or the zero value of `V`. -/
def GoMap.index {V : Type} (m : GoMap V) (k : TLSStateID) (zero : V) : V :=
  (m.lookup k).getD zero

/-- The write `m[k] = v`: panics on the nil map. -/
def GoMap.assign {V : Type} (m : GoMap V) (k : TLSStateID) (v : V) : Outcome (GoMap V) :=
  match m with
  | .nil => .fault
  | .table t => .ret (.table (t.insert k v))

/-- How many entries of the map are stored under key `k`. -/
def GoMap.entriesAt {V : Type} (m : GoMap V) (k : TLSStateID) : Nat :=
  match m with
  | .nil => 0
  | .table t => t.entries.keys.count k

/-! ## The call log -/

/-- The dynamic type of a `TLSState` interface value. -/
inductive StateKind where
  | ClientHelloState
  | ServerHelloState
  | ServerVerifyState
  | stateWithHook
  | other (name : Nat)
deriving DecidableEq, Repr

/-- One logged call. -/
inductive Event where
  | dial
  | next
  | execute (k : StateKind)
  | hook (name : Nat)
  | connRead (conn : Nat)
  | connWrite (conn : Nat)
  | connClose (conn : Nat)
deriving DecidableEq, Repr

/-- The environment together with the log of calls made so far. -/
structure World (σ : Type) where
  env : σ
  log : List Event

/-- Append one event to the log. -/
def World.record (w : World σ) (e : Event) : World σ :=
  { env := w.env, log := w.log ++ [e] }

/-! ## `net.Conn` -/

/-- A non-nil `net.Conn`: the three methods the program calls, as functions on
the environment. `id` names the connection in the log. `Read` is given the
length of the buffer. -/
structure Conn (σ : Type) where
  id : Nat
  Read : Nat → σ → (Nat × Option Error) × σ
  Write : List Nat → σ → (Nat × Option Error) × σ
  Close : σ → Option Error × σ

/-- The call `c.Read(b)`, logged. -/
def Conn.callRead (c : Conn σ) (len : Nat) (w : World σ) : (Nat × Option Error) × World σ :=
  ((c.Read len w.env).1, { env := (c.Read len w.env).2, log := w.log ++ [.connRead c.id] })

/-- The call `c.Write(b)`, logged. -/
def Conn.callWrite (c : Conn σ) (b : List Nat) (w : World σ) : (Nat × Option Error) × World σ :=
  ((c.Write b w.env).1, { env := (c.Write b w.env).2, log := w.log ++ [.connWrite c.id] })

/-- The call `c.Close()`, logged. -/
def Conn.callClose (c : Conn σ) (w : World σ) : Option Error × World σ :=
  ((c.Close w.env).1, { env := (c.Close w.env).2, log := w.log ++ [.connClose c.id] })

/-! ## Handshake context, hooks and phases -/

/-- `type TLSStateContext struct { c net.Conn; ClientHello string; ServerHello string }`. -/
structure TLSStateContext (σ : Type) where
  c : Option (Conn σ)
  ClientHello : String
  ServerHello : String

/-- The zero value of `TLSStateContext`: a nil connection and empty strings. -/
def TLSStateContext.zero : TLSStateContext σ :=
  { c := none, ClientHello := "", ServerHello := "" }

/-- A non-nil `TLSHook` (`func(ctx context.Context) error`). `name` names the
hook in the log. -/
structure TLSHook (σ : Type) where
  name : Nat
  run : σ → Outcome (Option Error) × σ

/-- The call `hook(ctx)`, logged. -/
def TLSHook.call (h : TLSHook σ) (w : World σ) : Outcome (Option Error) × World σ :=
  ((h.run w.env).1, { env := (h.run w.env).2, log := w.log ++ [.hook h.name] })

/-- A non-nil `TLSState` interface value, by dynamic type. The three default
phases hold `tlsCtx *TLSStateContext` (`none` is the nil pointer); nothing in
the program writes through that pointer after it is taken, so the phase holds
what it points to. `stateWithHook` embeds a `TLSState`, which may be nil.
`other` is any implementation from outside this file. -/
inductive TLSState (σ : Type) where
  | ClientHelloState (tlsCtx : Option (TLSStateContext σ))
  | ServerHelloState (tlsCtx : Option (TLSStateContext σ))
  | ServerVerifyState (tlsCtx : Option (TLSStateContext σ))
  | stateWithHook (hook : Option (TLSHook σ)) (inner : Option (TLSState σ))
  | other (name : Nat) (run : σ → Outcome (Option Error) × σ)

/-- The dynamic type of a phase. -/
def TLSState.kind : TLSState σ → StateKind
  | .ClientHelloState _ => .ClientHelloState
  | .ServerHelloState _ => .ServerHelloState
  | .ServerVerifyState _ => .ServerVerifyState
  | .stateWithHook _ _ => .stateWithHook
  | .other name _ => .other name

/-- `func (s *ClientHelloState) Execute`: writes the (empty) ClientHello bytes to
`s.tlsCtx.c` and returns the write error if any. Returns the outcome, what
`s.tlsCtx` points to afterwards, and the world. -/
def ClientHelloState.Execute (tlsCtx : Option (TLSStateContext σ)) (w : World σ) :
    Outcome (Option Error) × Option (TLSStateContext σ) × World σ :=
  match tlsCtx with
  | none => (.fault, none, w)
  | some ctx =>
    match ctx.c with
    | none => (.fault, some ctx, w)
    | some c =>
      match (c.callWrite [] w).1.2 with
      | some err => (.ret (some err), some ctx, (c.callWrite [] w).2)
      | none => (.ret none, some ctx, (c.callWrite [] w).2)

/-- `func (s *ServerHelloState) Execute`: reads into an empty buffer from
`s.tlsCtx.c` and returns the read error if any. -/
def ServerHelloState.Execute (tlsCtx : Option (TLSStateContext σ)) (w : World σ) :
    Outcome (Option Error) × Option (TLSStateContext σ) × World σ :=
  match tlsCtx with
  | none => (.fault, none, w)
  | some ctx =>
    match ctx.c with
    | none => (.fault, some ctx, w)
    | some c =>
      match (c.callRead 0 w).1.2 with
      | some err => (.ret (some err), some ctx, (c.callRead 0 w).2)
      | none => (.ret none, some ctx, (c.callRead 0 w).2)

/-- `func (s *ServerVerifyState) Execute`: returns nil. -/
def ServerVerifyState.Execute (tlsCtx : Option (TLSStateContext σ)) (w : World σ) :
    Outcome (Option Error) × Option (TLSStateContext σ) × World σ :=
  (.ret none, tlsCtx, w)

/-- The interface call `s.Execute(ctx)` on a non-nil `TLSState`, dispatched on the
dynamic type; the call is logged on entry. The `stateWithHook` case is
`func (s *stateWithHook) Execute`: a non-nil hook runs first and its error is
returned at once; otherwise the embedded phase is executed, which panics when
the embedded interface is nil. -/
def TLSState.Execute : TLSState σ → World σ → Outcome (Option Error) × World σ
  | .ClientHelloState tlsCtx, w =>
    ((ClientHelloState.Execute tlsCtx (w.record (.execute .ClientHelloState))).1,
      (ClientHelloState.Execute tlsCtx (w.record (.execute .ClientHelloState))).2.2)
  | .ServerHelloState tlsCtx, w =>
    ((ServerHelloState.Execute tlsCtx (w.record (.execute .ServerHelloState))).1,
      (ServerHelloState.Execute tlsCtx (w.record (.execute .ServerHelloState))).2.2)
  | .ServerVerifyState tlsCtx, w =>
    ((ServerVerifyState.Execute tlsCtx (w.record (.execute .ServerVerifyState))).1,
      (ServerVerifyState.Execute tlsCtx (w.record (.execute .ServerVerifyState))).2.2)
  | .stateWithHook (some h) inner, w =>
    match h.call (w.record (.execute .stateWithHook)) with
    | (.fault, w1) => (.fault, w1)
    | (.ret (some err), w1) => (.ret (some err), w1)
    | (.ret none, w1) =>
      match inner with
      | none => (.fault, w1)
      | some p => p.Execute w1
  | .stateWithHook none inner, w =>
    match inner with
    | none => (.fault, w.record (.execute .stateWithHook))
    | some p => p.Execute (w.record (.execute .stateWithHook))
  | .other name run, w =>
    ((run w.env).1, { env := (run w.env).2, log := w.log ++ [.execute (.other name)] })

/-- `func (s *stateWithHook) Execute` for the wrapper holding `hook` and the
embedded phase `inner`. -/
def stateWithHook.Execute (hook : Option (TLSHook σ)) (inner : Option (TLSState σ))
    (w : World σ) : Outcome (Option Error) × World σ :=
  (TLSState.stateWithHook hook inner).Execute w

/-! ## The sequencer -/

/-- `type TLSStateMachine struct { tlsCtx TLSStateContext; hooks ...; stages ...;
lastState TLSState }`. Map values may themselves be nil (a nil func, a nil
interface), hence the inner `Option`s. -/
structure TLSStateMachine (σ : Type) where
  tlsCtx : TLSStateContext σ
  hooks : GoMap (Option (TLSHook σ))
  stages : GoMap (Option (TLSState σ))
  lastState : Option (TLSState σ)

/-- The machine literal of the dial function, `&TLSStateMachine{hooks: hooks,
stages: stages}`: the fields not named (`tlsCtx`, `lastState`) are zero. -/
def TLSStateMachine.initial (hooks : GoMap (Option (TLSHook σ)))
    (stages : GoMap (Option (TLSState σ))) : TLSStateMachine σ :=
  { tlsCtx := TLSStateContext.zero, hooks := hooks, stages := stages, lastState := none }

/-- `func (sm *TLSStateMachine) Finished() bool`. -/
def TLSStateMachine.Finished (_sm : TLSStateMachine σ) : Bool :=
  false

/-- `func (sm *TLSStateMachine) Next() TLSState`: a type switch on the dynamic
type of `sm.lastState`. Returns the phase handed out (`none` is nil) and the
machine afterwards. -/
def TLSStateMachine.Next (sm : TLSStateMachine σ) : Option (TLSState σ) × TLSStateMachine σ :=
  match sm.lastState with
  | some (.ClientHelloState _) =>
    match sm.stages.lookup ClientHelloStateID with
    | some stage => (stage, { sm with lastState := stage })
    | none =>
      (some (.stateWithHook (sm.hooks.index ClientHelloStateID none)
          (some (.ServerHelloState (some sm.tlsCtx)))),
        { sm with lastState := some (.stateWithHook (sm.hooks.index ClientHelloStateID none)
            (some (.ServerHelloState (some sm.tlsCtx)))) })
  | some (.ServerHelloState _) =>
    match sm.stages.lookup ServerHelloStateID with
    | some stage => (stage, { sm with lastState := stage })
    | none =>
      (some (.stateWithHook (sm.hooks.index ServerHelloStateID none)
          (some (.ServerVerifyState (some sm.tlsCtx)))),
        { sm with lastState := some (.stateWithHook (sm.hooks.index ServerHelloStateID none)
            (some (.ServerVerifyState (some sm.tlsCtx)))) })
  | _ => (none, sm)

/-! ## The connection wrapper -/

/-- `type TLSConn struct { net.Conn; network string; address string;
sm *TLSStateMachine }`. The machine is held by value and handed back updated. -/
structure TLSConn (σ : Type) where
  Conn : Option (Conn σ)
  network : String
  address : String
  sm : TLSStateMachine σ

/-- `func (c *TLSConn) Handshake`: loop until `Finished`; each round asks the
machine for the next phase and executes it; a phase error ends the loop.
Calling `Execute` on a nil phase panics. The body does not use its `hooks`
parameter, which is left out. The loop need not terminate, so it runs on
fuel: `none` means the fuel ran out. Each call of `Next` is logged. -/
def TLSConn.Handshake : Nat → TLSConn σ → World σ →
    Option (Outcome (Option Error) × TLSConn σ × World σ)
  | 0, _, _ => none
  | fuel + 1, c, w =>
    if c.sm.Finished then some (.ret none, c, w)
    else
      match c.sm.Next.1 with
      | none => some (.fault, { c with sm := c.sm.Next.2 }, w.record .next)
      | some n =>
        match n.Execute (w.record .next) with
        | (.fault, w1) => some (.fault, { c with sm := c.sm.Next.2 }, w1)
        | (.ret (some err), w1) => some (.ret (some err), { c with sm := c.sm.Next.2 }, w1)
        | (.ret none, w1) => TLSConn.Handshake fuel { c with sm := c.sm.Next.2 } w1

/-- `func (c *TLSConn) Close() error`. -/
def TLSConn.Close (_c : TLSConn σ) (w : World σ) : Option Error × World σ :=
  (none, w)

/-! ## The dial function -/

/-- What the dial function hands back as a `net.Conn`: the raw connection of
`net.Dial`, or the wrapper. -/
inductive Handle (σ : Type) where
  | raw (c : Conn σ)
  | tls (t : TLSConn σ)

/-- The behaviour of `net.Dial(network, addr)`. -/
abbrev NetDial (σ : Type) := String → String → σ → (Option (Conn σ) × Option Error) × σ

/-- The end of the dial function, after `err = tlsConn.Handshake(ctx, hooks)`
has returned `err`: `if err != nil { c.Close(); return tlsConn, nil }` and
`return tlsConn, nil`. -/
def pqTLSWithHooks.finish (c : Option (Conn σ)) (tlsConn : TLSConn σ) (err : Option Error)
    (w : World σ) : Outcome (Option (Handle σ) × Option Error) × World σ :=
  match err with
  | some _ =>
    match c with
    | none => (.fault, w)
    | some conn => (.ret (some (.tls tlsConn), none), (conn.callClose w).2)
  | none => (.ret (some (.tls tlsConn), none), w)

/-- The function returned by `pqTLSWithHooks(hooks, stages)`, applied to
`network` and `addr`: dial, wrap the connection with a new machine, run the
handshake, finish. `none` means the handshake ran out of fuel. -/
def pqTLSWithHooks (hooks : GoMap (Option (TLSHook σ))) (stages : GoMap (Option (TLSState σ)))
    (dial : NetDial σ) (fuel : Nat) (network addr : String) (w : World σ) :
    Option (Outcome (Option (Handle σ) × Option Error) × World σ) :=
  match (dial network addr w.env).1.2 with
  | some err =>
    some (.ret ((dial network addr w.env).1.1.map Handle.raw, some err),
      { env := (dial network addr w.env).2, log := w.log ++ [.dial] })
  | none =>
    match TLSConn.Handshake fuel
        { Conn := (dial network addr w.env).1.1, network := network, address := addr,
          sm := TLSStateMachine.initial hooks stages }
        { env := (dial network addr w.env).2, log := w.log ++ [.dial] } with
    | none => none
    | some (.fault, _, w1) => some (.fault, w1)
    | some (.ret err, tlsConn, w1) =>
      some (pqTLSWithHooks.finish (dial network addr w.env).1.1 tlsConn err w1)

/-! ## The builder -/

/-- `type PQTLSHandshakeHandlerBuilder struct { hooks ...; stages ... }`. -/
structure PQTLSHandshakeHandlerBuilder (σ : Type) where
  hooks : GoMap (Option (TLSHook σ))
  stages : GoMap (Option (TLSState σ))

/-- `func NewPQTLSHandshakeHandlerBuilder()`: `hooks` is made, `stages` is left at
its zero value, the nil map. -/
def NewPQTLSHandshakeHandlerBuilder : PQTLSHandshakeHandlerBuilder σ :=
  { hooks := GoMap.make, stages := GoMap.nil }

/-- `func (b *PQTLSHandshakeHandlerBuilder) Build()`. -/
def PQTLSHandshakeHandlerBuilder.Build (b : PQTLSHandshakeHandlerBuilder σ) (dial : NetDial σ)
    (fuel : Nat) (network addr : String) (w : World σ) :
    Option (Outcome (Option (Handle σ) × Option Error) × World σ) :=
  pqTLSWithHooks b.hooks b.stages dial fuel network addr w

/-- `func (b *PQTLSHandshakeHandlerBuilder) AddHook(id, h)`: `b.hooks[id] = h`.
Returns the builder afterwards. -/
def PQTLSHandshakeHandlerBuilder.AddHook (b : PQTLSHandshakeHandlerBuilder σ) (id : TLSStateID)
    (h : Option (TLSHook σ)) : Outcome (PQTLSHandshakeHandlerBuilder σ) :=
  match b.hooks.assign id h with
  | .fault => .fault
  | .ret m => .ret { b with hooks := m }

/-- `func (b *PQTLSHandshakeHandlerBuilder) WithStage(id, s)`: `b.stages[id] = s`.
Returns the builder afterwards. -/
def PQTLSHandshakeHandlerBuilder.WithStage (b : PQTLSHandshakeHandlerBuilder σ) (id : TLSStateID)
    (s : Option (TLSState σ)) : Outcome (PQTLSHandshakeHandlerBuilder σ) :=
  match b.stages.assign id s with
  | .fault => .fault
  | .ret m => .ret { b with stages := m }

/-! ## Message declarations (`src/messages.go`) -/

/-- The Go types the message declarations are built from. -/
inductive GoType where
  | byte
  | uint8
  | uint16
  | array (n : Nat) (elem : GoType)
deriving DecidableEq, Repr

/-- The width of a value of the type, in bytes. -/
def GoType.size : GoType → Nat
  | .byte => 1
  | .uint8 => 1
  | .uint16 => 2
  | .array n elem => n * elem.size

/-- `type opaque byte`; the Go name is a reserved word here. -/
def opaqueByte : GoType := .byte

/-- `type ProtocolVersion uint16`. -/
def ProtocolVersion : GoType := .uint16

/-- `type Random [32]byte`. -/
def Random : GoType := .array 32 .byte

/-- `type CipherSuite [2]uint8`. -/
def CipherSuite : GoType := .array 2 .uint8

/-- `type ExtensionType uint8`. -/
def ExtensionType : GoType := .uint8

/-- A struct declaration: its fields in order, each with its name and type. -/
abbrev StructDecl := List (String × GoType)

/-- `type ClientHelloMessage struct { ... }`; the `Extensions` field is commented
out in the source and so is no field. -/
def ClientHelloMessage : StructDecl :=
  [("LegacyVersion", ProtocolVersion), ("Random", opaqueByte),
   ("LegacySessionID", opaqueByte), ("CipherSuites", CipherSuite),
   ("LegacyCompressionMethods", opaqueByte)]

/-- `type Extension struct { ExtensionType ExtensionType; ExtensionData opaque }`. -/
def Extension : StructDecl :=
  [("ExtensionType", ExtensionType), ("ExtensionData", opaqueByte)]

/-- The width in bytes of the named field of a struct, when it has that field. -/
def fieldSize (d : StructDecl) (name : String) : Option Nat :=
  (d.lookup name).map GoType.size

/-! ## Concrete inputs used below -/

/-- A connection numbered 1 over the trivial environment whose calls all succeed. -/
def okConn : Conn Unit :=
  { id := 1, Read := fun _ s => ((0, none), s), Write := fun _ s => ((0, none), s),
    Close := fun s => (none, s) }

/-- A hook that always fails with the error "rejected". -/
def failingHook (name : Nat) : TLSHook Unit :=
  { name := name, run := fun s => (.ret (some "rejected"), s) }

/-- A hook that always succeeds. -/
def passingHook (name : Nat) : TLSHook Unit :=
  { name := name, run := fun s => (.ret none, s) }

/-- A user-supplied phase that always succeeds. -/
def userPhase (name : Nat) : TLSState Unit :=
  .other name (fun s => (.ret none, s))

/-- The world before anything has been called. -/
def World.start : World Unit :=
  { env := (), log := [] }

/-- A handshake context over `okConn`. -/
def okCtx : TLSStateContext Unit :=
  { c := some okConn, ClientHello := "", ServerHello := "" }

/-- A machine whose last phase is ClientHello, with an override (user phase 9)
registered under `ServerHelloStateID` only and no hooks. -/
def overrideUnderServerHello : TLSStateMachine Unit :=
  { tlsCtx := okCtx,
    hooks := GoMap.make,
    stages := .table ((∅ : Finmap _).insert ServerHelloStateID (some (userPhase 9))),
    lastState := some (.ClientHelloState (some okCtx)) }

/-- A machine whose last phase is ClientHello, with an override (user phase 9)
registered under `ClientHelloStateID` and a hook registered under the same id. -/
def overrideUnderClientHello : TLSStateMachine Unit :=
  { tlsCtx := okCtx,
    hooks := .table ((∅ : Finmap _).insert ClientHelloStateID (some (passingHook 2))),
    stages := .table ((∅ : Finmap _).insert ClientHelloStateID (some (userPhase 9))),
    lastState := some (.ClientHelloState (some okCtx)) }

/-- A machine whose last phase is ClientHello, without overrides, with hook 1
registered under `ServerHelloStateID` and hook 2 under `ClientHelloStateID`. -/
def hooksUnderBothIds : TLSStateMachine Unit :=
  { tlsCtx := okCtx,
    hooks := .table (((∅ : Finmap _).insert ServerHelloStateID (some (passingHook 1))).insert
      ClientHelloStateID (some (passingHook 2))),
    stages := GoMap.nil,
    lastState := some (.ClientHelloState (some okCtx)) }

/-- A wrapper whose machine has run ClientHello and holds a failing hook under
`ClientHelloStateID`. -/
def connWithFailingHook : TLSConn Unit :=
  { Conn := some okConn, network := "tcp", address := "example.com:443",
    sm := { tlsCtx := okCtx,
            hooks := .table ((∅ : Finmap _).insert ClientHelloStateID (some (failingHook 5))),
            stages := GoMap.nil,
            lastState := some (.ClientHelloState (some okCtx)) } }

/-! ## Helper lemmas -/

/-- With no last phase recorded, `Next` returns nil and changes nothing. -/
theorem next_of_no_last_state (sm : TLSStateMachine σ) (h : sm.lastState = none) :
    sm.Next = (none, sm) := by
  unfold TLSStateMachine.Next
  rw [h]

/-- Calling `Next` any number of times leaves the initial machine as it is. -/
theorem iterate_next_initial (hooks : GoMap (Option (TLSHook σ)))
    (stages : GoMap (Option (TLSState σ))) (n : Nat) :
    (fun m : TLSStateMachine σ => m.Next.2)^[n] (TLSStateMachine.initial hooks stages)
      = TLSStateMachine.initial hooks stages := by
  induction n with
  | zero => rfl
  | succ k ih =>
    rw [Function.iterate_succ_apply, next_of_no_last_state _ rfl]
    exact ih

/-- Executing a phase only appends to the log, and never a `next` entry. -/
theorem execute_log_extends : ∀ (p : TLSState σ) (w : World σ),
    ∃ l, (p.Execute w).2.log = w.log ++ l ∧ Event.next ∉ l
  | .ClientHelloState tlsCtx, w => by
    unfold TLSState.Execute ClientHelloState.Execute
    cases tlsCtx with
    | none => exact ⟨[.execute .ClientHelloState], rfl, by simp⟩
    | some ctx =>
      cases hc : ctx.c with
      | none => exact ⟨[.execute .ClientHelloState], by simp [hc, World.record], by simp⟩
      | some c =>
        refine ⟨[.execute .ClientHelloState, .connWrite c.id], ?_, by simp⟩
        simp only [hc]
        split <;> simp [Conn.callWrite, World.record]
  | .ServerHelloState tlsCtx, w => by
    unfold TLSState.Execute ServerHelloState.Execute
    cases tlsCtx with
    | none => exact ⟨[.execute .ServerHelloState], rfl, by simp⟩
    | some ctx =>
      cases hc : ctx.c with
      | none => exact ⟨[.execute .ServerHelloState], by simp [hc, World.record], by simp⟩
      | some c =>
        refine ⟨[.execute .ServerHelloState, .connRead c.id], ?_, by simp⟩
        simp only [hc]
        split <;> simp [Conn.callRead, World.record]
  | .ServerVerifyState tlsCtx, w => ⟨[.execute .ServerVerifyState], rfl, by simp⟩
  | .other name run, w => ⟨[.execute (.other name)], rfl, by simp⟩
  | .stateWithHook none none, w => ⟨[.execute .stateWithHook], rfl, by simp⟩
  | .stateWithHook none (some p), w => by
    obtain ⟨l, hl, hn⟩ := execute_log_extends p (w.record (.execute .stateWithHook))
    refine ⟨.execute .stateWithHook :: l, ?_, by simp [hn]⟩
    simp only [TLSState.Execute]
    rw [hl]
    simp [World.record]
  | .stateWithHook (some h) inner, w => by
    simp only [TLSState.Execute]
    rcases hr : h.call (w.record (.execute .stateWithHook)) with ⟨o, w1⟩
    have hw1 : w1.log = w.log ++ [.execute .stateWithHook, .hook h.name] := by
      have := congrArg (fun r => r.2.log) hr
      simpa [TLSHook.call, World.record] using this.symm
    cases o with
    | fault => exact ⟨_, hw1, by simp⟩
    | ret r =>
      cases r with
      | some err => exact ⟨_, hw1, by simp⟩
      | none =>
        cases inner with
        | none => exact ⟨_, hw1, by simp⟩
        | some p =>
          obtain ⟨l, hl, hn⟩ := execute_log_extends p w1
          refine ⟨[.execute .stateWithHook, .hook h.name] ++ l, ?_, by simp [hn]⟩
          simp only [hl, hw1, List.append_assoc]

/-- Executing a phase leaves the number of logged `Next` calls unchanged. -/
theorem execute_keeps_next_count (p : TLSState σ) (w : World σ) :
    (p.Execute w).2.log.count .next = w.log.count .next := by
  obtain ⟨l, hl, hn⟩ := execute_log_extends p w
  rw [hl, List.count_append, List.count_eq_zero_of_not_mem hn, Nat.add_zero]

/-- `Next` never changes the machine's context or its tables. -/
theorem next_keeps_context (sm : TLSStateMachine σ) :
    sm.Next.2.tlsCtx = sm.tlsCtx ∧ sm.Next.2.hooks = sm.hooks
      ∧ sm.Next.2.stages = sm.stages := by
  unfold TLSStateMachine.Next
  split
  · split <;> exact ⟨rfl, rfl, rfl⟩
  · split <;> exact ⟨rfl, rfl, rfl⟩
  · exact ⟨rfl, rfl, rfl⟩

/-- A handshake leaves the machine's context as it was. -/
theorem handshake_keeps_context : ∀ (fuel : Nat) (c : TLSConn σ) (w : World σ)
    (r : Outcome (Option Error) × TLSConn σ × World σ),
    TLSConn.Handshake fuel c w = some r → r.2.1.sm.tlsCtx = c.sm.tlsCtx
  | 0, c, w, r, h => by simp [TLSConn.Handshake] at h
  | fuel + 1, c, w, r, h => by
    simp only [TLSConn.Handshake, TLSStateMachine.Finished] at h
    cases hn : c.sm.Next.1 with
    | none =>
      simp only [hn] at h
      cases h
      exact (next_keeps_context c.sm).1
    | some n =>
      simp only [hn] at h
      rcases hx : n.Execute (w.record .next) with ⟨o, w1⟩
      rw [hx] at h
      cases o with
      | fault =>
        cases h
        exact (next_keeps_context c.sm).1
      | ret e =>
        cases e with
        | some err =>
          cases h
          exact (next_keeps_context c.sm).1
        | none =>
          have := handshake_keeps_context fuel _ w1 r h
          rw [this]
          exact (next_keeps_context c.sm).1

/-- After a wrapper was recorded as last phase, `Next` returns nil and changes
nothing. -/
theorem next_after_wrapper (sm : TLSStateMachine σ) (hook : Option (TLSHook σ))
    (inner : Option (TLSState σ)) (h : sm.lastState = some (.stateWithHook hook inner)) :
    sm.Next = (none, sm) := by
  unfold TLSStateMachine.Next
  rw [h]

/-- The handshake on the wrapper the dial function builds never returns, with a
nil error or with an error: it runs out of fuel or it panics. -/
theorem fresh_handshake_never_returns (hooks : GoMap (Option (TLSHook σ)))
    (stages : GoMap (Option (TLSState σ))) (fuel : Nat) (c : Option (Conn σ))
    (network addr : String) (w : World σ) (err : Option Error) (t : TLSConn σ) (w1 : World σ) :
    TLSConn.Handshake fuel
        { Conn := c, network := network, address := addr,
          sm := TLSStateMachine.initial hooks stages } w
      ≠ some (.ret err, t, w1) := by
  cases fuel with
  | zero => simp [TLSConn.Handshake]
  | succ k =>
    simp [TLSConn.Handshake, TLSStateMachine.Finished,
      next_of_no_last_state (TLSStateMachine.initial hooks stages) rfl]

/-! ## Claims -/

/-- C1: on the machine the dial function builds for a builder without hooks and
without overrides, however many times `Next` has been called, the following
`Next` returns nil and `Finished` is false: no ClientHello, ServerHello or
ServerVerify phase is ever handed out and completion is never reported. -/
theorem initial_machine_hands_out_nothing (n : Nat) :
    ((fun m : TLSStateMachine σ => m.Next.2)^[n]
        (TLSStateMachine.initial GoMap.make GoMap.nil)).Next.1 = none
    ∧ ((fun m : TLSStateMachine σ => m.Next.2)^[n]
        (TLSStateMachine.initial GoMap.make GoMap.nil)).Finished = false := by
  rw [iterate_next_initial]
  exact ⟨rfl, rfl⟩

/-- C2: when the hook of a `stateWithHook` is present and returns the error `e`,
`Execute` returns exactly `e`, whatever phase is wrapped; the environment is as
the hook left it and the log gained only the wrapper's own entry and the hook
call, so the wrapped phase was not executed. -/
theorem stateWithHook_hook_failure (h : TLSHook σ) (inner : Option (TLSState σ)) (w : World σ)
    (e : Error) (env1 : σ) (hfail : h.run w.env = (.ret (some e), env1)) :
    stateWithHook.Execute (some h) inner w
      = (.ret (some e),
          { env := env1, log := w.log ++ [.execute .stateWithHook, .hook h.name] }) := by
  simp [stateWithHook.Execute, TLSState.Execute, TLSHook.call, World.record, hfail]

/-- C2 at a concrete input: a hook failing with "rejected" in front of a user phase. -/
theorem stateWithHook_hook_failure_witness :
    stateWithHook.Execute (some (failingHook 5)) (some (userPhase 9)) World.start
      = (.ret (some "rejected"),
          { env := (), log := [.execute .stateWithHook, .hook 5] }) :=
  stateWithHook_hook_failure (failingHook 5) (some (userPhase 9)) World.start "rejected" () rfl

/-- C3 as stated fails: with the override registered under `ServerHelloStateID`
and ClientHello the last phase, `Next` does not return the override; it returns
the default ServerHello phase wrapped in a `stateWithHook`. -/
theorem override_under_server_hello_is_not_returned :
    overrideUnderServerHello.stages.lookup ServerHelloStateID = some (some (userPhase 9))
    ∧ overrideUnderServerHello.lastState = some (.ClientHelloState (some okCtx))
    ∧ overrideUnderServerHello.Next.1
        = some (.stateWithHook none (some (.ServerHelloState (some okCtx))))
    ∧ overrideUnderServerHello.Next.1 ≠ some (userPhase 9) := by
  have hnext : overrideUnderServerHello.Next.1
      = some (.stateWithHook none (some (.ServerHelloState (some okCtx)))) := rfl
  refine ⟨rfl, rfl, hnext, ?_⟩
  rw [hnext]
  simp [userPhase]

/-- C3, amended: when the overrides table holds `o` under `ClientHelloStateID`
and the last phase is ClientHello, `Next` returns exactly `o` (not a
`stateWithHook` around it) and records it as last phase; the hooks table plays
no part in the result; and when `o` is a user-supplied phase, executing what
`Next` returned logs that phase's execution only, so no hook is called. -/
theorem next_returns_override_of_last_phase (sm : TLSStateMachine σ)
    (tlsCtx : Option (TLSStateContext σ)) (o : Option (TLSState σ))
    (hlast : sm.lastState = some (.ClientHelloState tlsCtx))
    (hover : sm.stages.lookup ClientHelloStateID = some o) :
    sm.Next = (o, { sm with lastState := o })
    ∧ (∀ hooks : GoMap (Option (TLSHook σ)),
        ({ sm with hooks := hooks } : TLSStateMachine σ).Next.1 = o)
    ∧ (∀ (name : Nat) (run : σ → Outcome (Option Error) × σ) (w : World σ),
        o = some (.other name run) →
        ∀ p, sm.Next.1 = some p →
          (p.Execute w).2.log = w.log ++ [.execute (.other name)]) := by
  have hn : ∀ hooks : GoMap (Option (TLSHook σ)),
      ({ sm with hooks := hooks } : TLSStateMachine σ).Next
        = (o, { sm with hooks := hooks, lastState := o }) := by
    intro hooks
    simp only [TLSStateMachine.Next, hlast, hover]
  have h0 : sm.Next = (o, { sm with lastState := o }) := by
    simp only [TLSStateMachine.Next, hlast, hover]
  refine ⟨h0, fun hooks => by rw [hn hooks], ?_⟩
  intro name run w ho p hp
  rw [h0, ho] at hp
  cases hp
  rfl

/-- C3, amended, at a concrete input: override 9 and hook 2 both registered under
`ClientHelloStateID`; `Next` returns override 9 itself. -/
theorem next_returns_override_of_last_phase_witness :
    overrideUnderClientHello.Next
      = (some (userPhase 9), { overrideUnderClientHello with lastState := some (userPhase 9) }) :=
  (next_returns_override_of_last_phase overrideUnderClientHello (some okCtx)
    (some (userPhase 9)) rfl rfl).1

/-- C4: `Finished` is false for every machine; in particular when the last phase
that ran is ServerVerify, bare or wrapped by a `stateWithHook`. -/
theorem finished_false_after_server_verify (sm : TLSStateMachine σ)
    (tlsCtx : Option (TLSStateContext σ)) (hook : Option (TLSHook σ)) :
    sm.Finished = false
    ∧ ({ sm with lastState := some (.ServerVerifyState tlsCtx) } : TLSStateMachine σ).Finished
        = false
    ∧ ({ sm with lastState := some (.stateWithHook hook (some (.ServerVerifyState tlsCtx))) } :
        TLSStateMachine σ).Finished = false :=
  ⟨rfl, rfl, rfl⟩

/-- C6: when `Next` hands out the phase `p` and `p.Execute` fails with `e`,
`Handshake` returns exactly `e` for any positive amount of fuel; the machine is
as that one `Next` left it, the world is the one in which `p.Execute` returned,
and the log holds one `Next` more than before. -/
theorem handshake_stops_at_phase_error (fuel : Nat) (c : TLSConn σ) (w w1 : World σ)
    (p : TLSState σ) (e : Error)
    (hnext : c.sm.Next.1 = some p)
    (hexec : p.Execute (w.record .next) = (.ret (some e), w1)) :
    TLSConn.Handshake (fuel + 1) c w = some (.ret (some e), { c with sm := c.sm.Next.2 }, w1)
    ∧ w1.log.count .next = w.log.count .next + 1 := by
  constructor
  · simp only [TLSConn.Handshake, TLSStateMachine.Finished, hnext, hexec]
    rfl
  · have hk := execute_keeps_next_count p (w.record .next)
    rw [hexec] at hk
    simp only [World.record] at hk
    rw [hk, List.count_append]
    simp

/-- C6 at a concrete input: the hook in front of the ServerHello phase fails. -/
theorem handshake_stops_at_phase_error_witness :
    TLSConn.Handshake 1 connWithFailingHook World.start
      = some (.ret (some "rejected"),
          { connWithFailingHook with sm := connWithFailingHook.sm.Next.2 },
          { env := (), log := [.next, .execute .stateWithHook, .hook 5] })
    ∧ [Event.next, .execute .stateWithHook, .hook 5].count .next
        = ([] : List Event).count .next + 1 :=
  handshake_stops_at_phase_error 0 connWithFailingHook World.start
    { env := (), log := [.next, .execute .stateWithHook, .hook 5] }
    (.stateWithHook (some (failingHook 5)) (some (.ServerHelloState (some okCtx))))
    "rejected" rfl rfl

/-- C7: on the machine the dial function builds, for any hooks and overrides
tables, `Finished` is false and `Next` returns nil; `Handshake` then calls
`Execute` on that nil phase and panics after a single `Next`, and the dial
function either hands back the error of `net.Dial` or panics in that way. -/
theorem initial_machine_next_nil_handshake_faults (hooks : GoMap (Option (TLSHook σ)))
    (stages : GoMap (Option (TLSState σ))) (fuel : Nat) (c : Option (Conn σ))
    (dial : NetDial σ) (network addr : String) (w : World σ) :
    (TLSStateMachine.initial hooks stages).Finished = false
    ∧ (TLSStateMachine.initial hooks stages).Next.1 = none
    ∧ TLSConn.Handshake (fuel + 1)
          { Conn := c, network := network, address := addr,
            sm := TLSStateMachine.initial hooks stages } w
        = some (.fault,
            { Conn := c, network := network, address := addr,
              sm := TLSStateMachine.initial hooks stages },
            w.record .next)
    ∧ pqTLSWithHooks hooks stages dial (fuel + 1) network addr w
        = (match (dial network addr w.env).1.2 with
          | some err =>
            some (.ret ((dial network addr w.env).1.1.map Handle.raw, some err),
              { env := (dial network addr w.env).2, log := w.log ++ [.dial] })
          | none =>
            some (.fault,
              { env := (dial network addr w.env).2, log := w.log ++ [.dial, .next] })) := by
  refine ⟨rfl, rfl, rfl, ?_⟩
  unfold pqTLSWithHooks
  cases hd : (dial network addr w.env).1.2 with
  | some err => rfl
  | none =>
    simp [TLSConn.Handshake, TLSStateMachine.Finished,
      next_of_no_last_state (TLSStateMachine.initial hooks stages) rfl, World.record]

/-- C8 as stated fails: with no override, hook 1 under `ServerHelloStateID` and
hook 2 under `ClientHelloStateID`, after ClientHello `Next` wraps the default
ServerHello phase with hook 2, not hook 1, and executing the result runs hook 2
before the ServerHello phase. -/
theorem server_hello_is_wrapped_with_other_hook :
    hooksUnderBothIds.stages.lookup ServerHelloStateID = none
    ∧ hooksUnderBothIds.hooks.index ServerHelloStateID none = some (passingHook 1)
    ∧ hooksUnderBothIds.Next.1
        = some (.stateWithHook (some (passingHook 2)) (some (.ServerHelloState (some okCtx))))
    ∧ hooksUnderBothIds.Next.1
        ≠ some (.stateWithHook (hooksUnderBothIds.hooks.index ServerHelloStateID none)
            (some (.ServerHelloState (some hooksUnderBothIds.tlsCtx))))
    ∧ (∀ p, hooksUnderBothIds.Next.1 = some p →
        (p.Execute World.start).2.log
          = [.execute .stateWithHook, .hook 2, .execute .ServerHelloState, .connRead 1]) := by
  have hnext : hooksUnderBothIds.Next.1
      = some (.stateWithHook (some (passingHook 2)) (some (.ServerHelloState (some okCtx)))) := rfl
  have hidx : hooksUnderBothIds.hooks.index ServerHelloStateID none = some (passingHook 1) := rfl
  refine ⟨rfl, hidx, hnext, ?_, ?_⟩
  · rw [hnext, hidx]
    simp [passingHook]
  · intro p hp
    rw [hnext] at hp
    cases hp
    rfl

/-- C8, amended: with no override registered under `ClientHelloStateID` and
ClientHello the last phase, `Next` returns the default ServerHello phase over
the machine's context, wrapped by a `stateWithHook` whose hook is the entry of
the hooks table under `ClientHelloStateID` (nil when there is none), and records
it as last phase; entries under other ids do not change the result. -/
theorem next_wraps_server_hello_with_hook_of_last_phase (sm : TLSStateMachine σ)
    (tlsCtx : Option (TLSStateContext σ))
    (hlast : sm.lastState = some (.ClientHelloState tlsCtx))
    (hnone : sm.stages.lookup ClientHelloStateID = none) :
    sm.Next
      = (some (.stateWithHook (sm.hooks.index ClientHelloStateID none)
            (some (.ServerHelloState (some sm.tlsCtx)))),
          { sm with lastState := some (.stateWithHook (sm.hooks.index ClientHelloStateID none)
              (some (.ServerHelloState (some sm.tlsCtx)))) })
    ∧ (∀ hooks : GoMap (Option (TLSHook σ)),
        hooks.index ClientHelloStateID none = sm.hooks.index ClientHelloStateID none →
        ({ sm with hooks := hooks } : TLSStateMachine σ).Next.1 = sm.Next.1) := by
  constructor
  · simp only [TLSStateMachine.Next, hlast, hnone]
  · intro hooks hh
    simp only [TLSStateMachine.Next, hlast, hnone, hh]

/-- C8, amended, at a concrete input: hook 2 sits under `ClientHelloStateID`. -/
theorem next_wraps_server_hello_with_hook_of_last_phase_witness :
    hooksUnderBothIds.Next.1
      = some (.stateWithHook (hooksUnderBothIds.hooks.index ClientHelloStateID none)
          (some (.ServerHelloState (some okCtx)))) :=
  congrArg Prod.fst
    (next_wraps_server_hello_with_hook_of_last_phase hooksUnderBothIds (some okCtx) rfl rfl).1

/-- C9: on the builder returned by `NewPQTLSHandshakeHandlerBuilder`, `WithStage`
panics for every id and every phase: the overrides table is the nil map, and
no entry is stored. -/
theorem withStage_on_new_builder_faults (id : TLSStateID) (s : Option (TLSState σ)) :
    (NewPQTLSHandshakeHandlerBuilder : PQTLSHandshakeHandlerBuilder σ).WithStage id s = .fault
    ∧ (NewPQTLSHandshakeHandlerBuilder : PQTLSHandshakeHandlerBuilder σ).stages.lookup id
        = none :=
  ⟨rfl, rfl⟩

/-- C10: on a builder whose hooks table is allocated (the one returned by
`NewPQTLSHandshakeHandlerBuilder`, and every builder obtained from it by
registrations), `AddHook(id, h1)` followed by `AddHook(id, h2)` returns
normally; afterwards the hooks table is the one `AddHook(id, h2)` alone would
give, it holds `h2` under `id` in exactly one entry, the entries under every
other id and the overrides table are as before; and registrations under two
distinct ids give the same builder in either order. -/
theorem addHook_last_registration_wins
    (t : Finmap (fun _ : TLSStateID => Option (TLSHook σ)))
    (stages : GoMap (Option (TLSState σ))) (id i j : TLSStateID)
    (h1 h2 hi hj : Option (TLSHook σ)) (hij : i ≠ j) :
    ((({ hooks := .table t, stages := stages } : PQTLSHandshakeHandlerBuilder σ).AddHook
          id h1).bind (fun b1 => b1.AddHook id h2)
        = .ret { hooks := .table (t.insert id h2), stages := stages })
    ∧ (GoMap.table (t.insert id h2)).lookup id = some h2
    ∧ (GoMap.table (t.insert id h2)).entriesAt id = 1
    ∧ (∀ k, k ≠ id → (GoMap.table (t.insert id h2)).lookup k = (GoMap.table t).lookup k)
    ∧ (({ hooks := .table t, stages := stages } : PQTLSHandshakeHandlerBuilder σ).AddHook
          i hi).bind (fun b1 => b1.AddHook j hj)
        = (({ hooks := .table t, stages := stages } : PQTLSHandshakeHandlerBuilder σ).AddHook
          j hj).bind (fun b1 => b1.AddHook i hi) := by
  refine ⟨?_, ?_, ?_, ?_, ?_⟩
  · simp [PQTLSHandshakeHandlerBuilder.AddHook, GoMap.assign, Outcome.bind,
      Finmap.insert_insert]
  · simp [GoMap.lookup, Finmap.lookup_insert]
  · have hmem : id ∈ (t.insert id h2).entries.keys := by
      rw [← Finmap.mem_def, Finmap.mem_insert]
      exact Or.inl rfl
    exact Multiset.count_eq_one_of_mem (t.insert id h2).nodupKeys.nodup_keys hmem
  · intro k hk
    simp [GoMap.lookup, Finmap.lookup_insert_of_ne _ hk]
  · simp [PQTLSHandshakeHandlerBuilder.AddHook, GoMap.assign, Outcome.bind,
      Finmap.insert_insert_of_ne _ hij]

/-- C10 on the builder returned by `NewPQTLSHandshakeHandlerBuilder`: two hooks
registered under `ClientHelloStateID`, and registrations under the two ids in
both orders. -/
theorem addHook_last_registration_wins_witness :
    (((NewPQTLSHandshakeHandlerBuilder : PQTLSHandshakeHandlerBuilder Unit).AddHook
          ClientHelloStateID (some (passingHook 1))).bind
          (fun b1 => b1.AddHook ClientHelloStateID (some (failingHook 2)))
        = .ret { hooks := .table ((∅ : Finmap _).insert ClientHelloStateID
                    (some (failingHook 2))),
                 stages := GoMap.nil })
    ∧ (GoMap.table ((∅ : Finmap _).insert ClientHelloStateID (some (failingHook 2)))).lookup
          ClientHelloStateID = some (some (failingHook 2))
    ∧ (GoMap.table ((∅ : Finmap (fun _ : TLSStateID => Option (TLSHook Unit))).insert
          ClientHelloStateID (some (failingHook 2)))).entriesAt ClientHelloStateID = 1
    ∧ (∀ k, k ≠ ClientHelloStateID →
        (GoMap.table ((∅ : Finmap _).insert ClientHelloStateID (some (failingHook 2)))).lookup k
          = (GoMap.table (∅ : Finmap (fun _ : TLSStateID => Option (TLSHook Unit)))).lookup k)
    ∧ ((NewPQTLSHandshakeHandlerBuilder : PQTLSHandshakeHandlerBuilder Unit).AddHook
          ClientHelloStateID (some (passingHook 1))).bind
          (fun b1 => b1.AddHook ServerHelloStateID (some (failingHook 2)))
        = ((NewPQTLSHandshakeHandlerBuilder : PQTLSHandshakeHandlerBuilder Unit).AddHook
          ServerHelloStateID (some (failingHook 2))).bind
          (fun b1 => b1.AddHook ClientHelloStateID (some (passingHook 1))) :=
  addHook_last_registration_wins ∅ GoMap.nil ClientHelloStateID ClientHelloStateID
    ServerHelloStateID (some (passingHook 1)) (some (failingHook 2)) (some (passingHook 1))
    (some (failingHook 2)) (by decide)

/-- C11: on every invocation of the dial function in which `net.Dial` opens the
connection `c`, for any hooks and overrides tables, the handshake fails: it
panics at its first step. The dial function ends in that panic, and between
its start and that end `Close` is called on `c` zero times: the log gains the
dial and one `Next`, and the number of closes of `c` is what it was. -/
theorem dial_never_closes_when_handshake_fails (hooks : GoMap (Option (TLSHook σ)))
    (stages : GoMap (Option (TLSState σ))) (c : Conn σ) (arrive : σ → σ) (fuel : Nat)
    (network addr : String) (w : World σ) :
    TLSConn.Handshake (fuel + 1)
        { Conn := some c, network := network, address := addr,
          sm := TLSStateMachine.initial hooks stages }
        { env := arrive w.env, log := w.log ++ [.dial] }
      = some (.fault,
          { Conn := some c, network := network, address := addr,
            sm := TLSStateMachine.initial hooks stages },
          { env := arrive w.env, log := w.log ++ [.dial, .next] })
    ∧ pqTLSWithHooks hooks stages (fun _ _ env => ((some c, none), arrive env)) (fuel + 1)
        network addr w
      = some (.fault, { env := arrive w.env, log := w.log ++ [.dial, .next] })
    ∧ (pqTLSWithHooks hooks stages (fun _ _ env => ((some c, none), arrive env)) (fuel + 1)
        network addr w).map (fun r => r.2.log.count (.connClose c.id))
      = some (w.log.count (.connClose c.id)) := by
  have hh : TLSConn.Handshake (fuel + 1)
        { Conn := some c, network := network, address := addr,
          sm := TLSStateMachine.initial hooks stages }
        { env := arrive w.env, log := w.log ++ [.dial] }
      = some (.fault,
          { Conn := some c, network := network, address := addr,
            sm := TLSStateMachine.initial hooks stages },
          { env := arrive w.env, log := w.log ++ [.dial, .next] }) := by
    simp [TLSConn.Handshake, TLSStateMachine.Finished,
      next_of_no_last_state (TLSStateMachine.initial hooks stages) rfl, World.record]
  have hd : pqTLSWithHooks hooks stages (fun _ _ env => ((some c, none), arrive env)) (fuel + 1)
        network addr w
      = some (.fault, { env := arrive w.env, log := w.log ++ [.dial, .next] }) := by
    simp only [pqTLSWithHooks, hh]
  refine ⟨hh, hd, ?_⟩
  rw [hd]
  simp [List.count_append]

/-- C12: `TLSConn.Close` on a wrapper over the connection `c` returns nil and
leaves the world as it was: `Close` is not called on `c`, whose environment and
log are untouched. -/
theorem tlsConn_close_leaves_connection_open (c : Conn σ) (network address : String)
    (sm : TLSStateMachine σ) (w : World σ) :
    TLSConn.Close { Conn := some c, network := network, address := address, sm := sm } w
      = (none, w)
    ∧ (TLSConn.Close { Conn := some c, network := network, address := address, sm := sm }
        w).2.log.count (.connClose c.id) = w.log.count (.connClose c.id) :=
  ⟨rfl, rfl⟩

/-- C13: a `stateWithHook` around the phase `p` whose hook is nil executes `p`
and returns its result; one whose hook is present and returns nil executes `p`
in the world the hook left, after the hook call, and returns its result. In
both cases the whole effect after the wrapper's entry (and the hook) is one
execution of `p`. -/
theorem stateWithHook_runs_wrapped_phase (h : TLSHook σ) (p : TLSState σ) (w : World σ)
    (env1 : σ) (hok : h.run w.env = (.ret none, env1)) :
    stateWithHook.Execute none (some p) w
      = p.Execute { env := w.env, log := w.log ++ [.execute .stateWithHook] }
    ∧ stateWithHook.Execute (some h) (some p) w
      = p.Execute { env := env1, log := w.log ++ [.execute .stateWithHook, .hook h.name] } := by
  constructor
  · simp [stateWithHook.Execute, TLSState.Execute, World.record]
  · simp [stateWithHook.Execute, TLSState.Execute, TLSHook.call, World.record, hok]

/-- C13 at a concrete input: a passing hook in front of a user phase; the log
shows the wrapper, then the hook, then the phase, once each. -/
theorem stateWithHook_runs_wrapped_phase_witness :
    stateWithHook.Execute none (some (userPhase 9)) World.start
      = (userPhase 9).Execute { env := (), log := [.execute .stateWithHook] }
    ∧ stateWithHook.Execute (some (passingHook 4)) (some (userPhase 9)) World.start
      = (userPhase 9).Execute { env := (), log := [.execute .stateWithHook, .hook 4] } :=
  stateWithHook_runs_wrapped_phase (passingHook 4) (userPhase 9) World.start () rfl

/-- C14: when `net.Dial` opens the connection `c`, the dial function built by
`Build` runs the handshake on a wrapper that holds `c` and a machine carrying
the builder's two tables, but the machine's handshake context holds no
connection: its `c` is nil, so a default ClientHello or ServerHello phase over
that context panics instead of writing to or reading from `c`. -/
theorem dial_machine_context_has_no_connection (b : PQTLSHandshakeHandlerBuilder σ)
    (c : Conn σ) (arrive : σ → σ) (fuel : Nat) (network addr : String) (w : World σ) :
    b.Build (fun _ _ env => ((some c, none), arrive env)) fuel network addr w
      = (match TLSConn.Handshake fuel
            { Conn := some c, network := network, address := addr,
              sm := TLSStateMachine.initial b.hooks b.stages }
            { env := arrive w.env, log := w.log ++ [.dial] } with
          | none => none
          | some (.fault, _, w1) => some (.fault, w1)
          | some (.ret err, tlsConn, w1) =>
            some (pqTLSWithHooks.finish (some c) tlsConn err w1))
    ∧ (TLSStateMachine.initial b.hooks b.stages).tlsCtx.c = none
    ∧ (TLSStateMachine.initial b.hooks b.stages).hooks = b.hooks
    ∧ (TLSStateMachine.initial b.hooks b.stages).stages = b.stages
    ∧ (TLSState.ClientHelloState (some (TLSStateMachine.initial b.hooks b.stages).tlsCtx)).Execute w
        = (.fault, w.record (.execute .ClientHelloState))
    ∧ (TLSState.ServerHelloState (some (TLSStateMachine.initial b.hooks b.stages).tlsCtx)).Execute w
        = (.fault, w.record (.execute .ServerHelloState)) :=
  ⟨rfl, rfl, rfl, rfl, rfl, rfl⟩

/-- C16: in the declarations of `messages.go` the protocol version field of
`ClientHelloMessage` is 2 bytes wide and an extension's type tag is 1 byte
wide, but the `Random` field is 1 byte wide: it is declared with the one-byte
type, not with the type `Random`, which is the one that is 32 bytes wide. -/
theorem client_hello_random_field_is_one_byte :
    fieldSize ClientHelloMessage "LegacyVersion" = some 2
    ∧ fieldSize Extension "ExtensionType" = some 1
    ∧ fieldSize ClientHelloMessage "Random" = some 1
    ∧ fieldSize ClientHelloMessage "Random" ≠ some 32
    ∧ Random.size = 32 := by
  decide

/-- C17: each default phase's `Execute`, on every context and in every world,
whatever its outcome, leaves what `s.tlsCtx` points to exactly as it was, so the
ClientHello and ServerHello fields are never written by any of them; and a
whole handshake run, however it ends, leaves the machine's context as it was. -/
theorem default_phases_keep_context (tlsCtx : Option (TLSStateContext σ)) (w : World σ)
    (fuel : Nat) (c : TLSConn σ) :
    (ClientHelloState.Execute tlsCtx w).2.1 = tlsCtx
    ∧ (ServerHelloState.Execute tlsCtx w).2.1 = tlsCtx
    ∧ (ServerVerifyState.Execute tlsCtx w).2.1 = tlsCtx
    ∧ (TLSConn.Handshake fuel c w).map (fun r => r.2.1.sm.tlsCtx)
        = (TLSConn.Handshake fuel c w).map (fun _ => c.sm.tlsCtx) := by
  refine ⟨?_, ?_, rfl, ?_⟩
  · unfold ClientHelloState.Execute
    split
    · rfl
    · split
      · rfl
      · split <;> rfl
  · unfold ServerHelloState.Execute
    split
    · rfl
    · split
      · rfl
      · split <;> rfl
  · cases hr : TLSConn.Handshake fuel c w with
    | none => rfl
    | some r =>
      simp only [Option.map_some']
      rw [handshake_keeps_context fuel c w r hr]

/-- C18: on a machine without overrides, whatever `Next` hands out is a default
ServerHello or ServerVerify phase over the machine's context wrapped in a
`stateWithHook`, and it is recorded as last phase; the call of `Next` that
follows returns nil and changes nothing, and so does every later one. -/
theorem next_after_default_transition_is_nil (sm : TLSStateMachine σ)
    (hno : ∀ k, sm.stages.lookup k = none) :
    (∀ p, sm.Next.1 = some p →
        (∃ hook, p = .stateWithHook hook (some (.ServerHelloState (some sm.tlsCtx)))
          ∨ p = .stateWithHook hook (some (.ServerVerifyState (some sm.tlsCtx))))
        ∧ sm.Next.2.lastState = some p)
    ∧ sm.Next.2.Next = (none, sm.Next.2)
    ∧ ∀ n, ((fun m : TLSStateMachine σ => m.Next.2)^[n] sm.Next.2).Next.1 = none := by
  have hstep : (∀ p, sm.Next.1 = some p →
        (∃ hook, p = .stateWithHook hook (some (.ServerHelloState (some sm.tlsCtx)))
          ∨ p = .stateWithHook hook (some (.ServerVerifyState (some sm.tlsCtx))))
        ∧ sm.Next.2.lastState = some p)
      ∧ sm.Next.2.Next = (none, sm.Next.2) := by
    cases hl : sm.lastState with
    | none =>
      rw [next_of_no_last_state sm hl]
      exact ⟨fun p hp => (by cases hp), next_of_no_last_state sm hl⟩
    | some q =>
      cases q with
      | ClientHelloState ctx =>
        have hn : sm.Next = (some (.stateWithHook (sm.hooks.index ClientHelloStateID none)
              (some (.ServerHelloState (some sm.tlsCtx)))),
            { sm with lastState := some (.stateWithHook (sm.hooks.index ClientHelloStateID none)
                (some (.ServerHelloState (some sm.tlsCtx)))) }) := by
          simp only [TLSStateMachine.Next, hl, hno]
        rw [hn]
        refine ⟨fun p hp => ?_, next_after_wrapper _ _ _ rfl⟩
        cases hp
        exact ⟨⟨_, Or.inl rfl⟩, rfl⟩
      | ServerHelloState ctx =>
        have hn : sm.Next = (some (.stateWithHook (sm.hooks.index ServerHelloStateID none)
              (some (.ServerVerifyState (some sm.tlsCtx)))),
            { sm with lastState := some (.stateWithHook (sm.hooks.index ServerHelloStateID none)
                (some (.ServerVerifyState (some sm.tlsCtx)))) }) := by
          simp only [TLSStateMachine.Next, hl, hno]
        rw [hn]
        refine ⟨fun p hp => ?_, next_after_wrapper _ _ _ rfl⟩
        cases hp
        exact ⟨⟨_, Or.inr rfl⟩, rfl⟩
      | ServerVerifyState ctx =>
        have hn : sm.Next = (none, sm) := by simp only [TLSStateMachine.Next, hl]
        rw [hn]
        exact ⟨fun p hp => (by cases hp), hn⟩
      | stateWithHook hook inner =>
        have hn : sm.Next = (none, sm) := next_after_wrapper sm hook inner hl
        rw [hn]
        exact ⟨fun p hp => (by cases hp), hn⟩
      | other name run =>
        have hn : sm.Next = (none, sm) := by simp only [TLSStateMachine.Next, hl]
        rw [hn]
        exact ⟨fun p hp => (by cases hp), hn⟩
  refine ⟨hstep.1, hstep.2, ?_⟩
  intro n
  have hfix : ∀ k, (fun m : TLSStateMachine σ => m.Next.2)^[k] sm.Next.2 = sm.Next.2 := by
    intro k
    induction k with
    | zero => rfl
    | succ j ih =>
      rw [Function.iterate_succ_apply, hstep.2]
      exact ih
  rw [hfix n, hstep.2]

/-- C18 at a concrete input: after ClientHello the machine hands out the wrapped
ServerHello phase, and the call that follows returns nil. -/
theorem next_after_default_transition_is_nil_witness :
    hooksUnderBothIds.Next.1
        = some (.stateWithHook (some (passingHook 2)) (some (.ServerHelloState (some okCtx))))
    ∧ hooksUnderBothIds.Next.2.Next = (none, hooksUnderBothIds.Next.2) :=
  ⟨rfl, (next_after_default_transition_is_nil hooksUnderBothIds (fun _ => rfl)).2.1⟩

end PQCrypto
